import Mathlib

/-
Shallow embedding of the in-memory virtual filesystem implemented in
src/dart/vendor/sweph/native/utils/mem_io.c.

The C unit keeps a global singly linked list `files` of `File` nodes
(name, owned byte buffer, size, cursor, next).  We model the heap of
nodes as an association list from numeric addresses to nodes, the head
pointer `files` as an optional address, and pointer traversal with
explicit fuel (a `none` result of a fueled search or of an operation
marks non-termination or undefined behaviour such as a null
dereference).  `size_t` and `long` are 32 bits wide on the wasm32
target this file is compiled for, so machine arithmetic is modelled
modulo `2 ^ 32`.  Freed buffers are recorded in the store so that
release of ownership is observable.
-/

namespace MemIO

/-- Width of size_t and long on the wasm32 target: 2 ^ 32. -/
def W : Nat := 2 ^ 32

/-- Wrapping unsigned subtraction of size_t values, as in
`file->size - file->cursor`. -/
def wsub (a b : Nat) : Nat := (((a : Int) - (b : Int)) % (W : Int)).toNat

/-- One `File` node of the linked registry (mem_io.c lines 10-16). -/
structure VFile where
  name : String
  buffer : List Nat
  size : Nat
  cursor : Nat
  next : Option Nat
  deriving Repr, DecidableEq

/-- The global state: heap of allocated nodes (address to node), the
bump allocator counter, the head pointer `files`, and the multiset of
buffers released with `free` so far. -/
structure Store where
  heap : List (Nat × VFile)
  nextAddr : Nat
  files : Option Nat
  freed : List (List Nat)
  deriving Repr, DecidableEq

/-- The initial state: `File* files = NULL;` and an empty heap. -/
def emptyStore : Store := ⟨[], 0, none, []⟩

/-- Heap lookup by address. -/
def lookupHeap : List (Nat × VFile) → Nat → Option VFile
  | [], _ => none
  | (b, f) :: rest, a => if a = b then some f else lookupHeap rest a

/-- Heap update at an address (no-op if the address is absent). -/
def updateHeap : List (Nat × VFile) → Nat → VFile → List (Nat × VFile)
  | [], _, _ => []
  | (b, g) :: rest, a, f =>
      if a = b then (b, f) :: rest else (b, g) :: updateHeap rest a f

/-- The search loop of `fOpen` (mem_io.c lines 48-57): follow `next`
pointers from `head` looking for `nm`.  Result `some (some a)` means
the node at address `a` matched, `some none` means the NULL end of the
list was reached without a match, and `none` means the fuel ran out
(the C loop does not terminate within that many steps) or a dangling
address was dereferenced. -/
def findAddr (heap : List (Nat × VFile)) : Nat → Option Nat → String → Option (Option Nat)
  | _, none, _ => some none
  | 0, some _, _ => none
  | fuel + 1, some a, nm =>
      match lookupHeap heap a with
      | none => none
      | some f => if f.name = nm then some (some a) else findAddr heap fuel f.next nm

/-- `fOpen` (mem_io.c lines 48-59): search the list for `filename`; on
a match reset that node's cursor to 0 and return its address, on no
match return the NULL handle.  Outer `none` is non-termination of the
search. -/
def fOpen (fuel : Nat) (s : Store) (filename : String) : Option (Option Nat × Store) :=
  match findAddr s.heap fuel s.files filename with
  | none => none
  | some none => some (none, s)
  | some (some a) =>
      match lookupHeap s.heap a with
      | none => none
      | some f =>
          some (some a, { s with heap := updateHeap s.heap a { f with cursor := 0 } })

/-- `write_file` (mem_io.c lines 20-45).  `allocOk` models whether the
`malloc` for a fresh node succeeds.  Mirrors the source exactly: it
first calls `fOpen`; if the name is present and `forceOverwrite` is
false it returns 1 immediately; otherwise it (re)installs the buffer,
size and cursor, frees a previous buffer if present, and pushes the
node on the front of the list (`file->next = files; files = file;`),
even when the node is already linked. -/
def write_file (fuel : Nat) (s : Store) (path : String) (contents : List Nat)
    (len : Nat) (forceOverwrite : Bool) (allocOk : Bool) : Option (Nat × Store) :=
  match fOpen fuel s path with
  | none => none
  | some (some a, s1) =>
      if forceOverwrite = false then some (1, s1)
      else
        match lookupHeap s1.heap a with
        | none => none
        | some f =>
            some (1, { s1 with
              heap := updateHeap s1.heap a
                { f with buffer := contents, size := len, cursor := 0, next := s1.files },
              files := some a,
              freed := f.buffer :: s1.freed })
  | some (none, s1) =>
      if allocOk = false then some (0, s1)
      else
        some (1, { s1 with
          heap := (s1.nextAddr, ⟨path, contents, len, 0, s1.files⟩) :: s1.heap,
          nextAddr := s1.nextAddr + 1,
          files := some s1.nextAddr })

/-- `fClose` (mem_io.c lines 61-68): -1 on a NULL handle, else reset
the cursor to 0 and return 0. -/
def fClose (s : Store) (stream : Option Nat) : Option (Int × Store) :=
  match stream with
  | none => some (-1, s)
  | some a =>
      match lookupHeap s.heap a with
      | none => none
      | some f => some (0, { s with heap := updateHeap s.heap a { f with cursor := 0 } })

/-- `fSeek` (mem_io.c lines 71-85).  The switch dereferences the
handle only inside the three recognized cases, so a NULL handle with a
recognized origin is undefined behaviour (`none`); an unrecognized
origin falls through to `return 0` without dereferencing.  Cursor
arithmetic is size_t arithmetic modulo `W`. -/
def fSeek (s : Store) (stream : Option Nat) (offset : Int) (origin : Int) :
    Option (Int × Store) :=
  if origin = 0 ∨ origin = 1 ∨ origin = 2 then
    match stream with
    | none => none
    | some a =>
        match lookupHeap s.heap a with
        | none => none
        | some f =>
            let c : Int :=
              if origin = 0 then offset
              else if origin = 1 then (f.cursor : Int) + offset
              else (f.size : Int) - offset
            let f1 : VFile := { f with cursor := (c % (W : Int)).toNat }
            some (0, { s with heap := updateHeap s.heap a f1 })
  else some (0, s)

/-- Conversion of a size_t value to `long` (both 32 bits wide). -/
def toLong (n : Nat) : Int := if n < W / 2 then (n : Int) else (n : Int) - (W : Int)

/-- `fTell` (mem_io.c lines 87-93): 0 on a NULL handle, else the
cursor cast to long. -/
def fTell (s : Store) (stream : Option Nat) : Option Int :=
  match stream with
  | none => some 0
  | some a =>
      match lookupHeap s.heap a with
      | none => none
      | some f => some (toLong f.cursor)

/-- The copy loop of `fRead` (mem_io.c lines 101-107):
`while (count-- > 0 && file->size - file->cursor > size)` with size_t
arithmetic; each iteration copies `size` bytes and advances the
cursor.  Returns the bytes copied, the final cursor and the element
count. -/
def fReadLoop (buffer : List Nat) (size fsize : Nat) : Nat → Nat → List Nat × Nat × Nat
  | 0, cursor => ([], cursor, 0)
  | count + 1, cursor =>
      if size < wsub fsize cursor then
        let chunk := (buffer.drop cursor).take size
        let r := fReadLoop buffer size fsize count ((cursor + size) % W)
        (chunk ++ r.1, r.2.1, r.2.2 + 1)
      else ([], cursor, 0)

/-- `fRead` (mem_io.c lines 95-111): on a NULL handle return
`(size_t)-1`, i.e. `W - 1`; otherwise run the copy loop.  Returns the
bytes written to the output buffer, the element count returned, and
the updated store. -/
def fRead (s : Store) (size count : Nat) (stream : Option Nat) :
    Option (List Nat × Nat × Store) :=
  match stream with
  | none => some ([], W - 1, s)
  | some a =>
      match lookupHeap s.heap a with
      | none => none
      | some f =>
          let r := fReadLoop f.buffer size f.size count f.cursor
          some (r.1, r.2.2, { s with heap := updateHeap s.heap a { f with cursor := r.2.1 } })

/-- `fWrite` (mem_io.c line 112): always reports 0 elements written
and touches nothing. -/
def fWrite (s : Store) (_size _count : Nat) (_stream : Option Nat) : Nat × Store :=
  (0, s)

/-- `fRewind` (mem_io.c lines 114-120): silent no-op on a NULL handle,
else reset the cursor to 0. -/
def fRewind (s : Store) (stream : Option Nat) : Option Store :=
  match stream with
  | none => some s
  | some a =>
      match lookupHeap s.heap a with
      | none => none
      | some f => some { s with heap := updateHeap s.heap a { f with cursor := 0 } }

/-- The copy loop of `fGets` (mem_io.c lines 127-133):
`while (n-- > 0 && file->cursor < file->size)` copies one byte per
iteration, stopping after a newline (byte 10) is copied.  The fuel
argument is the current value of `n` (so up to `n` bytes are copied).
Returns the bytes copied and the final cursor. -/
def fGetsLoop (buffer : List Nat) (fsize : Nat) : Nat → Nat → List Nat × Nat
  | 0, cursor => ([], cursor)
  | m + 1, cursor =>
      if cursor < fsize then
        let next := buffer.getD cursor 0
        if next = 10 then ([next], cursor + 1)
        else
          let r := fGetsLoop buffer fsize m (cursor + 1)
          (next :: r.1, r.2)
      else ([], cursor)

/-- `fGets` (mem_io.c lines 122-140): NULL on a NULL handle; run the
copy loop; if no byte was copied return NULL, else null-terminate and
return the buffer.  The result carries the full contents written to
`str`, terminator included, so its length is the number of bytes the C
code stores into the caller's buffer. -/
def fGets (s : Store) (n : Int) (stream : Option Nat) :
    Option (Option (List Nat) × Store) :=
  match stream with
  | none => some (none, s)
  | some a =>
      match lookupHeap s.heap a with
      | none => none
      | some f =>
          let r := fGetsLoop f.buffer f.size n.toNat f.cursor
          let s1 : Store := { s with heap := updateHeap s.heap a { f with cursor := r.2 } }
          if r.1 = [] then some (none, s1)
          else some (some (r.1 ++ [0]), s1)

/-- A one-entry registry holding name "A" with one byte, as produced by a
first successful registration. -/
def storeA7 : Store := ⟨[(0, ⟨"A", [7], 1, 0, none⟩)], 1, some 0, []⟩

/-- A one-entry registry holding name "A" with bytes [10, 20, 30], cursor 0. -/
def storeA3 : Store := ⟨[(0, ⟨"A", [10, 20, 30], 3, 0, none⟩)], 1, some 0, []⟩

/-- The same registry with the cursor advanced to 2 by a seek. -/
def storeA3c2 : Store := ⟨[(0, ⟨"A", [10, 20, 30], 3, 2, none⟩)], 1, some 0, []⟩

/-- The registry after `write_file("A", [97], 1, 0)` followed by
`write_file("A", [98], 1, 1)`: the forced overwrite relinked the already
linked node, so its `next` pointer now points back to itself. -/
def cyclicStore : Store := ⟨[(0, ⟨"A", [98], 1, 0, some 0⟩)], 1, some 0, [[97]]⟩

/-- The entry of "A" with the cursor at 2, as held in `storeA3c2`. -/
def fileA3c2 : VFile := ⟨"A", [10, 20, 30], 3, 2, none⟩

/-- The registry produced from `storeA3c2` by a refused re-registration of
"A": identical except that the entry's cursor is reset to 0. -/
def storeA3r : Store :=
  { storeA3c2 with heap := updateHeap storeA3c2.heap 0 ({ fileA3c2 with cursor := 0 }) }

/-- A one-entry registry holding name "M" with bytes "abc". -/
def storeM : Store := ⟨[(0, ⟨"M", [97, 98, 99], 3, 0, none⟩)], 1, some 0, []⟩

/-- A one-entry registry holding a 10-byte file named "T". -/
def storeT : Store := ⟨[(0, ⟨"T", List.range 10, 10, 0, none⟩)], 1, some 0, []⟩

/-- The 10-byte registry after the cursor wrapped below zero:
seek(from-current, -3) from cursor 0 leaves cursor 2^32 - 3. -/
def storeTwrap : Store := ⟨[(0, ⟨"T", List.range 10, 10, 4294967293, none⟩)], 1, some 0, []⟩

/-- A one-entry registry holding a 5-byte file named "R". -/
def storeR5 : Store := ⟨[(0, ⟨"R", [1, 2, 3, 4, 5], 5, 0, none⟩)], 1, some 0, []⟩

/-- A one-entry registry holding name "A" with bytes "AB". -/
def storeAB : Store := ⟨[(0, ⟨"A", [65, 66], 2, 0, none⟩)], 1, some 0, []⟩

/-- The entry held in `storeAB`. -/
def fileAB : VFile := ⟨"A", [65, 66], 2, 0, none⟩

/-- The entry held in `storeT`. -/
def fileT : VFile := ⟨"T", List.range 10, 10, 0, none⟩

/-- The entry held in `storeTwrap`: the cursor wrapped to 2^32 - 3. -/
def fileTwrap : VFile := ⟨"T", List.range 10, 10, 4294967293, none⟩

/-- The 10-byte registry with the cursor at 10 (after seek from-end 0). -/
def storeTc10 : Store := ⟨[(0, ⟨"T", List.range 10, 10, 10, none⟩)], 1, some 0, []⟩

/-- The 10-byte registry with the cursor at 7 (after seek from-end 3). -/
def storeTc7 : Store := ⟨[(0, ⟨"T", List.range 10, 10, 7, none⟩)], 1, some 0, []⟩

/-- The 10-byte registry with the cursor at 1 (after the wrapped cursor
advanced by a 4-byte read: (2^32 - 3 + 4) mod 2^32 = 1). -/
def storeTc1 : Store := ⟨[(0, ⟨"T", List.range 10, 10, 1, none⟩)], 1, some 0, []⟩

/-- The entry held in `storeR5`. -/
def fileR5 : VFile := ⟨"R", [1, 2, 3, 4, 5], 5, 0, none⟩

/-- The 5-byte registry with the cursor at 4 (after one 4-byte element was
read). -/
def storeR5c4 : Store := ⟨[(0, ⟨"R", [1, 2, 3, 4, 5], 5, 4, none⟩)], 1, some 0, []⟩

/-! ### Helper lemmas about the heap and machine arithmetic -/

theorem lookupHeap_updateHeap_self (h : List (Nat × VFile)) (a : Nat) (f g : VFile)
    (hl : lookupHeap h a = some f) : lookupHeap (updateHeap h a g) a = some g := by
  induction h with
  | nil => simp [lookupHeap] at hl
  | cons p rest ih =>
      obtain ⟨b, v⟩ := p
      by_cases hab : a = b
      · simp [lookupHeap, updateHeap, hab]
      · simp only [lookupHeap, updateHeap, if_neg hab] at hl ⊢
        exact ih hl

theorem lookupHeap_updateHeap_ne (h : List (Nat × VFile)) (a b : Nat) (g : VFile)
    (hab : b ≠ a) : lookupHeap (updateHeap h a g) b = lookupHeap h b := by
  induction h with
  | nil => simp [updateHeap, lookupHeap]
  | cons p rest ih =>
      obtain ⟨c, v⟩ := p
      by_cases hac : a = c
      · subst hac
        simp [lookupHeap, updateHeap, if_neg hab]
      · simp only [updateHeap, if_neg hac, lookupHeap]
        by_cases hbc : b = c
        · simp [hbc]
        · simp [if_neg hbc, ih]

theorem updateHeap_self_id (h : List (Nat × VFile)) (a : Nat) (f : VFile)
    (hl : lookupHeap h a = some f) : updateHeap h a f = h := by
  induction h with
  | nil => rfl
  | cons p rest ih =>
      obtain ⟨b, v⟩ := p
      by_cases hab : a = b
      · subst hab
        have hv : v = f := by simpa [lookupHeap] using hl
        subst hv
        simp [updateHeap]
      · simp only [lookupHeap, if_neg hab] at hl
        simp [updateHeap, if_neg hab, ih hl]

theorem wval : W = 4294967296 := by norm_num [W]

theorem wsub_eq_sub (a b : Nat) (hba : b ≤ a) (haW : a < W) : wsub a b = a - b := by
  unfold wsub
  rw [wval] at haW ⊢
  omega

theorem wsub_eq_wrap (a b : Nat) (hab : a < b) (hbW : b < W) : wsub a b = W - (b - a) := by
  unfold wsub
  rw [wval] at hbW ⊢
  omega

theorem findAddr_found_name (heap : List (Nat × VFile)) (nm : String) (a : Nat) :
    ∀ (fuel : Nat) (head : Option Nat), findAddr heap fuel head nm = some (some a) →
      ∃ f, lookupHeap heap a = some f ∧ f.name = nm := by
  intro fuel
  induction fuel with
  | zero =>
      intro head h
      cases head <;> simp [findAddr] at h
  | succ n ih =>
      intro head h
      cases head with
      | none => simp [findAddr] at h
      | some b =>
          cases hl : lookupHeap heap b with
          | none => simp only [findAddr, hl] at h; exact absurd h (by simp)
          | some f =>
              simp only [findAddr, hl] at h
              by_cases hn : f.name = nm
              · rw [if_pos hn] at h
                simp only [Option.some.injEq] at h
                exact ⟨f, by rw [← h]; exact hl, hn⟩
              · rw [if_neg hn] at h
                exact ih f.next h

theorem findAddr_selfloop (heap : List (Nat × VFile)) (a : Nat) (f : VFile) (nm : String)
    (hl : lookupHeap heap a = some f) (hn : f.name ≠ nm) (hnx : f.next = some a) :
    ∀ fuel, findAddr heap fuel (some a) nm = none := by
  intro fuel
  induction fuel with
  | zero => rfl
  | succ n ih =>
      simp only [findAddr, hl, if_neg hn, hnx]
      exact ih

theorem fReadLoop_spec (buffer : List Nat) (size fsize : Nat) (hsz : 0 < size)
    (hW : fsize < W) : ∀ (count cursor : Nat), cursor ≤ fsize →
    fReadLoop buffer size fsize count cursor =
      ((buffer.drop cursor).take (size * min count ((fsize - cursor - 1) / size)),
       cursor + size * min count ((fsize - cursor - 1) / size),
       min count ((fsize - cursor - 1) / size)) := by
  intro count
  induction count with
  | zero =>
      intro cursor hc
      simp [fReadLoop]
  | succ n ih =>
      intro cursor hc
      have hrem : wsub fsize cursor = fsize - cursor := wsub_eq_sub fsize cursor hc hW
      by_cases hg : size < wsub fsize cursor
      · have hlt : size < fsize - cursor := by rw [hrem] at hg; exact hg
        have hcs : cursor + size ≤ fsize := by omega
        have hmod : (cursor + size) % W = cursor + size := Nat.mod_eq_of_lt (by omega)
        have hdiv : (fsize - cursor - 1) / size = (fsize - (cursor + size) - 1) / size + 1 := by
          have h1 : fsize - cursor - 1 = (fsize - (cursor + size) - 1) + size := by omega
          rw [h1, Nat.add_div_right _ hsz]
        have hmin : min (n + 1) ((fsize - cursor - 1) / size)
            = min n ((fsize - (cursor + size) - 1) / size) + 1 := by omega
        simp only [fReadLoop, if_pos hg, hmod, ih (cursor + size) hcs]
        rw [hmin]
        refine Prod.ext ?_ (Prod.ext ?_ rfl)
        · show (buffer.drop cursor).take size
              ++ ((buffer.drop (cursor + size)).take (size * min n ((fsize - (cursor + size) - 1) / size)))
            = (buffer.drop cursor).take (size * (min n ((fsize - (cursor + size) - 1) / size) + 1))
          rw [Nat.mul_add, Nat.mul_one, Nat.add_comm (size * _) size, List.take_add,
            List.drop_drop]
        · show cursor + size + size * min n ((fsize - (cursor + size) - 1) / size)
            = cursor + size * (min n ((fsize - (cursor + size) - 1) / size) + 1)
          rw [Nat.mul_add, Nat.mul_one]
          omega
      · have hle : fsize - cursor ≤ size := by rw [hrem] at hg; omega
        have hdiv0 : (fsize - cursor - 1) / size = 0 := Nat.div_eq_of_lt (by omega)
        simp [fReadLoop, if_neg hg, hdiv0]

theorem fGetsLoop_reads_all (B : List Nat) (hnl : ∀ b ∈ B, b ≠ 10) :
    ∀ (fuel c : Nat), fuel = B.length - c → c ≤ B.length →
      fGetsLoop B B.length fuel c = (B.drop c, B.length) := by
  intro fuel
  induction fuel with
  | zero =>
      intro c hf hc
      have hcl : c = B.length := by omega
      subst hcl
      simp [fGetsLoop]
  | succ n ih =>
      intro c hf hc
      have hclt : c < B.length := by omega
      have hnext : B.getD c 0 = B.get ⟨c, hclt⟩ := by
        rw [List.getD_eq_getElem B 0 hclt]
        simp
      have h10 : ¬ B.getD c 0 = 10 := by
        rw [hnext]
        exact hnl _ (List.get_mem B c hclt)
      simp only [fGetsLoop, if_pos hclt, if_neg h10]
      rw [ih (c + 1) (by omega) (by omega)]
      refine Prod.ext ?_ rfl
      show B.getD c 0 :: B.drop (c + 1) = B.drop c
      rw [hnext]
      exact (List.drop_eq_getElem_cons hclt).symm

/-! ### Claim theorems -/

/-- C1, counterexample: registering a name that is already present without
`forceOverwrite` does NOT return a result distinguishable from success.  The
first (performed) registration of "A" returns status 1, and the refused second
registration of "A" returns the very same status 1: `write_file` only returns
0 when `malloc` fails, so the caller cannot tell refusal from success. -/
theorem c1_counterexample :
    write_file 1 emptyStore "A" [7] 1 false true = some (1, storeA7) ∧
    (write_file 1 storeA7 "A" [8] 1 false true).map Prod.fst = some 1 := by
  exact ⟨by decide, by decide⟩

/-- C1, amended: when name `nm` is already registered, calling
`write_file (nm, contents, len, forceOverwrite = false)` performs no
replacement and returns, but the status it returns is 1 — the same value a
performed registration returns — so failure is not distinguishable from
success by the return value. -/
theorem c1_refused_registration_returns_success_code (fuel : Nat) (s s1 : Store)
    (nm : String) (contents : List Nat) (len : Nat) (allocOk : Bool) (a : Nat)
    (h : fOpen fuel s nm = some (some a, s1)) :
    write_file fuel s nm contents len false allocOk = some (1, s1) := by
  unfold write_file
  rw [h]
  simp

/-- Witness for C1: the amended theorem applied to a concrete one-entry
registry already holding name "A". -/
theorem c1_witness :
    fOpen 1 storeA7 "A" = some (some 0, storeA7) ∧
    write_file 1 storeA7 "A" [8] 1 false true = some (1, storeA7) :=
  ⟨by decide,
   c1_refused_registration_returns_success_code 1 storeA7 storeA7 "A" [8] 1 true 0 (by decide)⟩

/-- C2: the claim that `open` of an absent name always terminates with the
"not found" signal is broken by the code after a forced re-registration.
`write_file("A", [97], 1, 0)` then `write_file("A", [98], 1, 1)` makes the
overwritten node's `next` pointer point back to itself (the forced-overwrite
path re-links an already linked node), and afterwards the search loop of
`fOpen("B")` never reaches NULL: for every fuel bound the traversal is still
running, i.e. the C loop does not terminate. -/
theorem c2_forced_overwrite_breaks_open_termination :
    (write_file 1 emptyStore "A" [97] 1 false true).bind
        (fun p => write_file 2 p.2 "A" [98] 1 true true) = some (1, cyclicStore) ∧
    ∀ fuel, fOpen fuel cyclicStore "B" = none := by
  constructor
  · decide
  · intro fuel
    unfold fOpen
    have h := findAddr_selfloop cyclicStore.heap 0 ⟨"A", [98], 1, 0, some 0⟩ "B"
      rfl (by decide) rfl fuel
    rw [show cyclicStore.files = some 0 from rfl, h]

/-- C3, counterexample: a refused registration does not leave the existing
entry completely unchanged.  With the entry of "A" at cursor 2, the refused
`write_file("A", [9], 1, 0)` leaves buffer and size intact but resets the
cursor to 0 (the internal `fOpen` lookup rewinds the entry it finds), so the
cursor does not keep the value it had before the call. -/
theorem c3_counterexample :
    fSeek storeA3 (some 0) 2 0 = some (0, storeA3c2) ∧
    (lookupHeap storeA3c2.heap 0).map VFile.cursor = some 2 ∧
    write_file 1 storeA3c2 "A" [9] 1 false true = some (1, storeA3) ∧
    (lookupHeap storeA3.heap 0).map VFile.cursor = some 0 := by
  exact ⟨by decide, by decide, by decide, by decide⟩

/-- C3, amended: when `write_file (nm, contents, len, forceOverwrite = false)`
finds name `nm` already present, the call returns 1 and the registry is the
old registry with only the found entry's cursor reset to 0: that entry keeps
its buffer and size (only its cursor is clobbered), and every other entry is
completely untouched. -/
theorem c3_refusal_preserves_buffer_and_size_but_resets_cursor
    (fuel : Nat) (s : Store) (nm : String) (contents : List Nat) (len : Nat)
    (allocOk : Bool) (a : Nat) (f : VFile)
    (hl : lookupHeap s.heap a = some f)
    (hfind : findAddr s.heap fuel s.files nm = some (some a)) :
    write_file fuel s nm contents len false allocOk =
      some (1, { s with heap := updateHeap s.heap a ({ f with cursor := 0 }) }) ∧
    lookupHeap (updateHeap s.heap a ({ f with cursor := 0 })) a
      = some ({ f with cursor := 0 }) ∧
    ∀ b, b ≠ a →
      lookupHeap (updateHeap s.heap a ({ f with cursor := 0 })) b = lookupHeap s.heap b := by
  refine ⟨?_, lookupHeap_updateHeap_self s.heap a f _ hl,
    fun b hb => lookupHeap_updateHeap_ne s.heap a b _ hb⟩
  simp [write_file, fOpen, hfind, hl]

/-- Witness for C3: the amended theorem applied to the registry whose entry
for "A" sits at cursor 2. -/
theorem c3_witness :
    lookupHeap storeA3c2.heap 0 = some fileA3c2 ∧
    findAddr storeA3c2.heap 1 storeA3c2.files "A" = some (some 0) ∧
    (write_file 1 storeA3c2 "A" [9] 1 false true = some (1, storeA3r) ∧
      lookupHeap storeA3r.heap 0 = some ({ fileA3c2 with cursor := 0 }) ∧
      ∀ b, b ≠ 0 → lookupHeap storeA3r.heap b = lookupHeap storeA3c2.heap b) :=
  ⟨by decide, by decide,
   c3_refusal_preserves_buffer_and_size_but_resets_cursor 1 storeA3c2 "A" [9] 1 true 0
     fileA3c2 (by decide) (by decide)⟩

/-- C4: the claim that `fGets` stops after `maxChars - 1` copied bytes and
writes at most `maxChars` bytes is contradicted by the code, whose loop
`while (n-- > 0 && ...)` copies up to `maxChars` bytes and then stores a null
terminator after them.  On the 3-byte file "abc" with `maxChars = 2` the code
copies 2 bytes (97, 98) — not 1 — and writes 3 = `maxChars + 1` bytes into
the caller's buffer, one past the `fgets` contract the function replaces. -/
theorem c4_fgets_writes_maxchars_plus_one_bytes :
    write_file 1 emptyStore "M" [97, 98, 99] 3 false true = some (1, storeM) ∧
    fGets storeM 2 (some 0) =
      some (some [97, 98, 0], ⟨[(0, ⟨"M", [97, 98, 99], 3, 2, none⟩)], 1, some 0, []⟩) ∧
    ([97, 98, 0] : List Nat).length = 2 + 1 := by
  exact ⟨by decide, by decide, by decide⟩

/-- C8: every claimed null-handle safe default holds: `fTell` on the NULL
handle returns 0, `fRead` returns the error sentinel `(size_t)-1 = W - 1`
which is distinguishable from 0, `fRewind` is a silent no-op, and `fClose`
returns the error code -1 — and in every case the registry `s` is returned
unchanged. -/
theorem c8_null_handle_defaults (s : Store) (esize count : Nat) :
    fTell s none = some 0 ∧
    fRead s esize count none = some ([], W - 1, s) ∧
    W - 1 ≠ 0 ∧
    fRewind s none = some s ∧
    fClose s none = some (-1, s) :=
  ⟨rfl, rfl, by decide, rfl, rfl⟩

/-- C9, counterexample: `fSeek` with the NULL handle and the recognized
origin SEEK_SET does not take a safe default path: the switch body assigns
through the handle unconditionally, which the embedding marks as undefined
behaviour (`none`). -/
theorem c9_counterexample : fSeek emptyStore none 0 0 = none := rfl

/-- C9, amended: every stream operation except `fSeek` takes a defined safe
default on a NULL handle (`fTell` 0, `fRead` error sentinel, `fRewind` and
`fGets` no-ops, `fClose` error code, `fWrite` 0), but `fSeek` with a NULL
handle and any recognized origin dereferences the NULL handle — undefined
behaviour rather than a safe return. -/
theorem c9_seek_has_no_null_handle_default (s : Store) (offset origin : Int)
    (esize count : Nat) (n : Int)
    (h : origin = 0 ∨ origin = 1 ∨ origin = 2) :
    fSeek s none offset origin = none ∧
    fTell s none = some 0 ∧
    fRead s esize count none = some ([], W - 1, s) ∧
    fRewind s none = some s ∧
    fClose s none = some (-1, s) ∧
    fGets s n none = some (none, s) ∧
    fWrite s esize count none = (0, s) := by
  refine ⟨?_, rfl, rfl, rfl, rfl, rfl, rfl⟩
  unfold fSeek
  rw [if_pos h]

/-- Witness for C9: the amended theorem applied at origin SEEK_CUR on the
empty registry. -/
theorem c9_witness :
    ((1 : Int) = 0 ∨ (1 : Int) = 1 ∨ (1 : Int) = 2) ∧
    (fSeek emptyStore none 5 1 = none ∧
      fTell emptyStore none = some 0 ∧
      fRead emptyStore 4 2 none = some ([], W - 1, emptyStore) ∧
      fRewind emptyStore none = some emptyStore ∧
      fClose emptyStore none = some (-1, emptyStore) ∧
      fGets emptyStore 3 none = some (none, emptyStore) ∧
      fWrite emptyStore 4 2 none = (0, emptyStore)) :=
  ⟨by decide, c9_seek_has_no_null_handle_default emptyStore 5 1 4 2 3 (by decide)⟩

/-- C5: `fRead` on a valid handle reads whole elements only while the
remaining bytes `size - cursor` are strictly greater than the element size:
the element count returned is `min count ((size - cursor - 1) / elementSize)`
— the exact closed form of the strict pre-check, under which an element that
would exactly exhaust the remaining bytes is not read — the bytes copied out
are that many whole elements taken at the cursor, and the cursor advances by
exactly `elementSize` times the number of elements read. -/
theorem c5_read_boundary_exclusive (s : Store) (a : Nat) (f : VFile)
    (size count : Nat) (hl : lookupHeap s.heap a = some f)
    (hc : f.cursor ≤ f.size) (hW : f.size < W) (hsz : 0 < size) :
    fRead s size count (some a) =
      some ((f.buffer.drop f.cursor).take (size * min count ((f.size - f.cursor - 1) / size)),
        min count ((f.size - f.cursor - 1) / size),
        { s with heap := updateHeap s.heap a ({ f with cursor := f.cursor + size * min count ((f.size - f.cursor - 1) / size) }) }) := by
  simp [fRead, hl, fReadLoop_spec f.buffer size f.size hsz hW count f.cursor hc]

/-- Witness for C5: the spec's own example, a 5-byte file at cursor 0.  A
read with elementSize 5 returns 0 elements (5 is not strictly greater than
5) and leaves the cursor at 0; a read with elementSize 4 returns 1 element
and advances the cursor to exactly 4 = elementSize times 1. -/
theorem c5_witness :
    (lookupHeap storeR5.heap 0 = some fileR5 ∧ fileR5.cursor ≤ fileR5.size ∧
      fileR5.size < W ∧ 0 < 5 ∧ 0 < 4) ∧
    fRead storeR5 5 1 (some 0) = some ([], 0, storeR5) ∧
    fRead storeR5 4 1 (some 0) = some ([1, 2, 3, 4], 1, storeR5c4) :=
  ⟨⟨by decide, by decide, by decide, by decide, by decide⟩,
   (c5_read_boundary_exclusive storeR5 0 fileR5 5 1 (by decide) (by decide) (by decide)
     (by decide)).trans (by decide),
   (c5_read_boundary_exclusive storeR5 0 fileR5 4 1 (by decide) (by decide) (by decide)
     (by decide)).trans (by decide)⟩

/-- C6: on a valid handle, `fSeek` always returns the success status 0 for
each of the three origins, and sets the cursor to the raw arithmetic result:
`offset` for from-start, `cursor + offset` for from-current and
`size - offset` for from-end, whenever that result is representable (no
clamping and no rejection occur; out-of-range arithmetic is the subject of
C10). -/
theorem c6_seek_arithmetic (s : Store) (a : Nat) (f : VFile) (offset : Int)
    (hl : lookupHeap s.heap a = some f) :
    (∀ origin : Int, origin = 0 ∨ origin = 1 ∨ origin = 2 →
      (fSeek s (some a) offset origin).map Prod.fst = some 0) ∧
    (0 ≤ offset → offset < (W : Int) →
      fSeek s (some a) offset 0 =
        some (0, { s with heap := updateHeap s.heap a ({ f with cursor := offset.toNat }) })) ∧
    (0 ≤ (f.cursor : Int) + offset → (f.cursor : Int) + offset < (W : Int) →
      fSeek s (some a) offset 1 =
        some (0, { s with heap := updateHeap s.heap a ({ f with cursor := ((f.cursor : Int) + offset).toNat }) })) ∧
    (0 ≤ (f.size : Int) - offset → (f.size : Int) - offset < (W : Int) →
      fSeek s (some a) offset 2 =
        some (0, { s with heap := updateHeap s.heap a ({ f with cursor := ((f.size : Int) - offset).toNat }) })) := by
  refine ⟨?_, ?_, ?_, ?_⟩
  · rintro origin (rfl | rfl | rfl) <;> simp [fSeek, hl]
  · intro h1 h2
    simp [fSeek, hl, Int.emod_eq_of_lt h1 h2]
  · intro h1 h2
    simp [fSeek, hl, Int.emod_eq_of_lt h1 h2]
  · intro h1 h2
    simp [fSeek, hl, Int.emod_eq_of_lt h1 h2]

/-- Witness for C6: the spec's own example, a 10-byte file.  Seek from-end
with offset 0 sets the cursor to 10, seek from-end with offset 3 sets it to
7, and the returned status is 0. -/
theorem c6_witness :
    fSeek storeT (some 0) 0 2 = some (0, storeTc10) ∧
    fSeek storeT (some 0) 3 2 = some (0, storeTc7) ∧
    (fSeek storeT (some 0) 3 2).map Prod.fst = some 0 :=
  ⟨((c6_seek_arithmetic storeT 0 fileT 0 (by decide)).2.2.2 (by decide) (by decide)).trans
     (by decide),
   ((c6_seek_arithmetic storeT 0 fileT 3 (by decide)).2.2.2 (by decide) (by decide)).trans
     (by decide),
   (c6_seek_arithmetic storeT 0 fileT 3 (by decide)).1 2 (by decide)⟩

/-- C7: a forced re-registration of a present name returns success, frees
the old buffer (it is recorded among the released buffers), installs the new
contents with the new length as the entry's size and resets the cursor to 0;
a subsequent `fOpen` of the name finds that entry (with cursor 0), and a
line-read of the whole entry yields exactly the new bytes starting from
position 0. -/
theorem c7_forced_overwrite_installs_new_contents
    (fuel : Nat) (s : Store) (nm : String) (B : List Nat) (allocOk : Bool)
    (a : Nat) (f : VFile)
    (hl : lookupHeap s.heap a = some f) (hname : f.name = nm)
    (hfind : findAddr s.heap fuel s.files nm = some (some a))
    (hB : B ≠ []) (hnl : ∀ b ∈ B, b ≠ 10) :
    ∃ s2 : Store,
      write_file fuel s nm B B.length true allocOk = some (1, s2) ∧
      s2.files = some a ∧
      lookupHeap s2.heap a = some ⟨nm, B, B.length, 0, s.files⟩ ∧
      f.buffer ∈ s2.freed ∧
      fOpen 1 s2 nm = some (some a, s2) ∧
      (fGets s2 (B.length : Int) (some a)).map Prod.fst = some (some (B ++ [0])) := by
  subst hname
  have hlg : lookupHeap (updateHeap s.heap a ({ f with cursor := 0 })) a
      = some ({ f with cursor := 0 }) :=
    lookupHeap_updateHeap_self s.heap a f _ hl
  refine ⟨{ heap := updateHeap (updateHeap s.heap a ({ f with cursor := 0 })) a ⟨f.name, B, B.length, 0, s.files⟩, nextAddr := s.nextAddr, files := some a, freed := f.buffer :: s.freed }, ?_, rfl, ?_, ?_, ?_, ?_⟩
  · simp [write_file, fOpen, hfind, hl, hlg]
  · exact lookupHeap_updateHeap_self _ a _ _ hlg
  · exact List.mem_cons_self _ _
  · have hl2 : lookupHeap (updateHeap (updateHeap s.heap a ({ f with cursor := 0 })) a
        ⟨f.name, B, B.length, 0, s.files⟩) a = some ⟨f.name, B, B.length, 0, s.files⟩ :=
      lookupHeap_updateHeap_self _ a _ _ hlg
    have hupd := updateHeap_self_id _ a _ hl2
    simp [fOpen, findAddr, hl2, hupd]
  · have hl2 : lookupHeap (updateHeap (updateHeap s.heap a ({ f with cursor := 0 })) a
        ⟨f.name, B, B.length, 0, s.files⟩) a = some ⟨f.name, B, B.length, 0, s.files⟩ :=
      lookupHeap_updateHeap_self _ a _ _ hlg
    have hloop := fGetsLoop_reads_all B hnl B.length 0 (by omega) (by omega)
    simp [fGets, hl2, hloop, hB]

/-- Witness for C7: overwrite the two-byte entry "A" (bytes "AB") with the
bytes "CD" and observe the replaced entry, the freed old buffer, the
successful re-open and the full read of the new contents. -/
theorem c7_witness :
    (lookupHeap storeAB.heap 0 = some fileAB ∧ fileAB.name = "A" ∧
      findAddr storeAB.heap 1 storeAB.files "A" = some (some 0) ∧
      ([67, 68] : List Nat) ≠ [] ∧ ∀ b ∈ ([67, 68] : List Nat), b ≠ 10) ∧
    (∃ s2 : Store,
      write_file 1 storeAB "A" [67, 68] ([67, 68] : List Nat).length true true = some (1, s2) ∧
      s2.files = some 0 ∧
      lookupHeap s2.heap 0 = some ⟨"A", [67, 68], ([67, 68] : List Nat).length, 0, storeAB.files⟩ ∧
      fileAB.buffer ∈ s2.freed ∧
      fOpen 1 s2 "A" = some (some 0, s2) ∧
      (fGets s2 (([67, 68] : List Nat).length : Int) (some 0)).map Prod.fst
        = some (some ([67, 68] ++ [0]))) :=
  ⟨⟨by decide, by decide, by decide, by decide, by decide⟩,
   c7_forced_overwrite_installs_new_contents 1 storeAB "A" [67, 68] true 0 fileAB
     (by decide) (by decide) (by decide) (by decide) (by decide)⟩

/-- C10: the cursor is an unsigned machine word.  Seek from-current with a
negative offset whose magnitude exceeds the cursor, and seek from-end with
an offset greater than the size, set the cursor to the arithmetic result
plus 2^32 — the value wrapped modulo the word size, a non-negative (large)
position — and a subsequent read compares `size - cursor` to the element
size with the same wrapping unsigned subtraction, so it happily reads an
element past the end and advances the cursor modulo 2^32. -/
theorem c10_cursor_wraps_modulo_word (s : Store) (a : Nat) (f : VFile)
    (offset : Int) (esize : Nat) (hl : lookupHeap s.heap a = some f)
    (hcW : f.cursor < W) :
    ((f.cursor : Int) + offset < 0 → -(W : Int) ≤ (f.cursor : Int) + offset →
      fSeek s (some a) offset 1 =
        some (0, { s with heap := updateHeap s.heap a ({ f with cursor := ((f.cursor : Int) + offset + W).toNat }) })) ∧
    ((f.size : Int) - offset < 0 → -(W : Int) ≤ (f.size : Int) - offset →
      fSeek s (some a) offset 2 =
        some (0, { s with heap := updateHeap s.heap a ({ f with cursor := ((f.size : Int) - offset + W).toNat }) })) ∧
    (f.size < f.cursor → esize < W - (f.cursor - f.size) →
      wsub f.size f.cursor = W - (f.cursor - f.size) ∧
      fRead s esize 1 (some a) =
        some ((f.buffer.drop f.cursor).take esize, 1,
          { s with heap := updateHeap s.heap a ({ f with cursor := (f.cursor + esize) % W }) })) := by
  have hWi : ((W : Nat) : Int) = 4294967296 := by norm_num [W]
  refine ⟨?_, ?_, ?_⟩
  · intro h1 h2
    have hc : (((f.cursor : Int) + offset) % (W : Int)).toNat
        = ((f.cursor : Int) + offset + W).toNat := by
      rw [hWi] at h2 ⊢
      omega
    simp [fSeek, hl, hc]
  · intro h1 h2
    have hc : (((f.size : Int) - offset) % (W : Int)).toNat
        = ((f.size : Int) - offset + W).toNat := by
      rw [hWi] at h2 ⊢
      omega
    simp [fSeek, hl, hc]
  · intro h1 h2
    have hw := wsub_eq_wrap f.size f.cursor h1 hcW
    refine ⟨hw, ?_⟩
    have hguard : esize < wsub f.size f.cursor := by rw [hw]; omega
    simp [fRead, fReadLoop, hl, if_pos hguard]

/-- Witness for C10: the 10-byte file.  Seek from-current by -3 from cursor
0 wraps the cursor to 2^32 - 3 = 4294967293; seek from-end with offset 13
wraps it to the same value; from the wrapped position, the wrapped remaining
count is 13, so a read of one 4-byte element succeeds and leaves the cursor
at (2^32 - 3 + 4) mod 2^32 = 1. -/
theorem c10_witness :
    fSeek storeT (some 0) (-3) 1 = some (0, storeTwrap) ∧
    fSeek storeT (some 0) 13 2 = some (0, storeTwrap) ∧
    (wsub 10 4294967293 = 13 ∧
      fRead storeTwrap 4 1 (some 0) = some ([], 1, storeTc1)) :=
  ⟨((c10_cursor_wraps_modulo_word storeT 0 fileT (-3) 4 (by decide)
      (by decide)).1 (by decide) (by decide)).trans (by decide),
   ((c10_cursor_wraps_modulo_word storeT 0 fileT 13 4 (by decide)
      (by decide)).2.1 (by decide) (by decide)).trans (by decide),
   (((c10_cursor_wraps_modulo_word storeTwrap 0 fileTwrap 0 4 (by decide)
      (by decide)).2.2 (by decide) (by decide)).1.trans (by decide)),
   (((c10_cursor_wraps_modulo_word storeTwrap 0 fileTwrap 0 4 (by decide)
      (by decide)).2.2 (by decide) (by decide)).2.trans (by decide))⟩

end MemIO
